import Mathlib

/-!
# Verification of the `win_w3wp` and `win_services` input plugins

A shallow embedding of `plugins/inputs/win_w3wp/win_w3wp.go` and
`plugins/inputs/win_services/win_services.go`.

* Go strings are sequences of bytes (`GoString`); indexing and slicing are by byte.
* Go maps are association lists with unique keys; an insertion of a fresh key
  appends at the end, an assignment to an existing key replaces the value in place.
* Unsigned machine integers that are only copied are natural numbers.
* A run-time panic is an `Except.error`.
-/

set_option autoImplicit false

namespace Telegraf

/-! ## Go strings -/

/-- A Go string: an immutable sequence of bytes. -/
abbrev GoString := List UInt8

/-- The bytes (UTF-8) of a string literal. -/
def lit (s : String) : GoString := s.data.flatMap String.utf8EncodeChar

/-- Run-time panics of the Go code modelled here. -/
inductive Panic where
  /-- slice bounds out of range -/
  | sliceBounds
  /-- invalid memory address or nil pointer dereference -/
  | nilDereference
  deriving DecidableEq, Repr

/-- `strings.Index(s, substr)`: the byte index of the first instance of `substr`
in `s`, or `-1` if `substr` is not present in `s`. -/
def Index : GoString → GoString → Int
  | [], substr => if substr = [] then 0 else -1
  | c :: s, substr =>
    if substr.isPrefixOf (c :: s) then 0
    else
      let r := Index s substr
      if r = -1 then -1 else r + 1

/-- `strings.Contains(s, substr)`: reports whether `substr` is within `s`. -/
def Contains (s substr : GoString) : Bool := decide (0 ≤ Index s substr)

/-- The slice expression `s[lo:hi]` on a string: panics unless `0 ≤ lo ≤ hi ≤ len(s)`. -/
def slice (s : GoString) (lo hi : Int) : Except Panic GoString :=
  if 0 ≤ lo ∧ lo ≤ hi ∧ hi ≤ (s.length : Int) then
    .ok ((s.drop lo.toNat).take (hi - lo).toNat)
  else .error .sliceBounds

/-- The slice expression `s[lo:]`, which is `s[lo:len(s)]`. -/
def sliceFrom (s : GoString) (lo : Int) : Except Panic GoString :=
  slice s lo (s.length : Int)

/-! ## `win_w3wp`: extraction of the application pool name -/

/-- The function `getAppPoolNameFromCommandLine` of `win_w3wp.go`. The Go `int`
arithmetic is modelled on `Int`: the indices are bounded by the length of a string
held in memory, far from the 64-bit range. -/
def getAppPoolNameFromCommandLine (commandLine : GoString) : Except Panic GoString :=
  let apIndex := Index commandLine (lit "-ap")
  if apIndex = -1 then .ok (lit "")
  else
    let startIndex := apIndex + ((lit "-ap").length : Int) + 2
    match sliceFrom commandLine startIndex with
    | .error p => .error p
    | .ok rest =>
      let endIndex := Index rest (lit "\"") + startIndex
      slice commandLine startIndex endIndex

/-! ## Go maps, errors, metrics -/

/-- A Go map, as an association list with unique keys. -/
abbrev GoMap (κ ν : Type) := List (κ × ν)

/-- The lookup `v, ok := m[k]`. -/
def mapGet {κ ν : Type} [DecidableEq κ] : GoMap κ ν → κ → Option ν
  | [], _ => none
  | (k1, v) :: m, k => if k1 = k then some v else mapGet m k

/-- The assignment `m[k] = v`. -/
def mapSet {κ ν : Type} [DecidableEq κ] : GoMap κ ν → κ → ν → GoMap κ ν
  | [], k, v => [(k, v)]
  | (k1, v1) :: m, k, v => if k1 = k then (k, v) :: m else (k1, v1) :: mapSet m k v

/-- Go error values, as far as the plugins and their callers build and inspect them. -/
inductive GoError where
  /-- the sentinel `fs.ErrPermission` -/
  | errPermission
  /-- an error of a library type, such as `syscall.Errno`: `isPermission` is what its
  method `Is` answers for `fs.ErrPermission` -/
  | library (isPermission : Bool) (msg : GoString)
  /-- an error that only carries a message (`errors.New`, `fmt.Errorf` without `%w`) -/
  | errorString (msg : GoString)
  /-- `fmt.Errorf(msg + ": %w", err)` -/
  | wrap (msg : GoString) (err : GoError)
  /-- a `*ServiceError` of `win_services.go` -/
  | service (Message Service : GoString) (Err : GoError)
  deriving DecidableEq, Repr

/-- Severity of a log line. -/
inductive LogLevel where
  | debug
  | error
  deriving DecidableEq, Repr

/-- A line written to the plugin's logger: the fixed text and the error whose
`Error()` text is printed. -/
structure LogEntry where
  level : LogLevel
  text : GoString
  err : GoError
  deriving DecidableEq, Repr

/-- A `float64` value that is a non-negative integer, given by the number it denotes. -/
structure Float64 where
  val : Nat
  deriving DecidableEq, Repr

/-- The conversion `float64(x)` of a `uint64`: exact below `2^53`, otherwise rounded to
53 significant bits, to nearest and ties to even. -/
def float64 (x : Nat) : Float64 :=
  if x < 2 ^ 53 then ⟨x⟩
  else
    let e := Nat.log2 x - 52
    let q := x / 2 ^ e
    let r := x % 2 ^ e
    let half := 2 ^ (e - 1)
    if r < half then ⟨q * 2 ^ e⟩
    else if half < r then ⟨(q + 1) * 2 ^ e⟩
    else if q % 2 = 0 then ⟨q * 2 ^ e⟩
    else ⟨(q + 1) * 2 ^ e⟩

/-- A field value handed to the accumulator (`interface{}`): the dynamic type and the value. -/
inductive FieldValue where
  | float64 (v : Float64)
  | uint64 (v : Nat)
  | uint32 (v : Nat)
  | int (v : Int)
  deriving DecidableEq, Repr

/-- One call `acc.AddFields(measurement, fields, tags)`. The two maps are written in the
order of their map literal. -/
structure Metric where
  measurement : GoString
  fields : List (GoString × FieldValue)
  tags : List (GoString × GoString)
  deriving DecidableEq, Repr

/-! ## `win_w3wp`: data model -/

/-- The struct `AppPoolMetric`. -/
structure AppPoolMetric where
  percentProcessorTime : Float64
  privateBytes : Nat
  workingSet : Nat
  handleCount : Nat
  threadCount : Nat
  ioReadBytesPerSec : Nat
  ioWriteBytesPerSec : Nat
  deriving DecidableEq, Repr

/-- The zero value `AppPoolMetric{}`. -/
def AppPoolMetric.zero : AppPoolMetric := ⟨⟨0⟩, 0, 0, 0, 0, 0, 0⟩

/-- The struct `Win32_PerfFormattedData_PerfProc_Process`. -/
structure Win32_PerfFormattedData_PerfProc_Process where
  IDProcess : Nat
  Name : GoString
  PercentProcessorTime : Nat
  PrivateBytes : Nat
  WorkingSet : Nat
  HandleCount : Nat
  ThreadCount : Nat
  IOReadBytesPerSec : Nat
  IOWriteBytesPerSec : Nat
  deriving DecidableEq, Repr

/-- The struct `Win32_Process`. -/
structure Win32_Process where
  ProcessId : Nat
  Name : GoString
  CommandLine : GoString
  deriving DecidableEq, Repr

/-- The interface `WmiClient`. `Query` is called with two destination types only; the
answer to the `n`-th call made by the plugin is a function of `n` and of that type. -/
structure WmiClient where
  /-- `Query(q, dst)` with `dst : *[]Win32_Process` -/
  QueryProcess : Nat → Except GoError (List Win32_Process)
  /-- `Query(q, dst)` with `dst : *[]Win32_PerfFormattedData_PerfProc_Process` -/
  QueryPerf : Nat → Except GoError (List Win32_PerfFormattedData_PerfProc_Process)

/-- The interface `telegraf.Logger`, as a logger that the agent has set on the plugin;
the lines it receives are collected in the field `log` of the engine. -/
structure Logger where
  name : GoString
  deriving DecidableEq, Repr

/-- The struct `WinW3wp`. The channel `metricsChan` has capacity one: it is empty or
holds one batch. A field that is `nil` before `Init` is `none`; `Log` is `nil` unless
it is set, as in a plugin value built without it. -/
structure WinW3wp where
  Log : Option Logger := none
  IntervalStr : GoString
  AppPoolMetrics : GoMap GoString AppPoolMetric
  WmiClient : Option WmiClient
  interval : Int
  processMap : GoMap Nat GoString
  metricsChan : Option (List Win32_PerfFormattedData_PerfProc_Process)

/-! ## `win_w3wp`: aggregation and emission -/

/-- The statement `w.AppPoolMetrics[k].field = x`: the map holds pointers, the entry is
looked up and the pointee updated; a missing entry is a nil pointer. -/
def assignField (apm : GoMap GoString AppPoolMetric) (k : GoString)
    (f : AppPoolMetric → AppPoolMetric) : Except Panic (GoMap GoString AppPoolMetric) :=
  match mapGet apm k with
  | none => .error .nilDereference
  | some v => .ok (mapSet apm k (f v))

/-- The body of the inner loop of `updateAppPoolMetrics`, for one sample. -/
def updateAppPoolMetricsSample (processMap : GoMap Nat GoString)
    (apm : GoMap GoString AppPoolMetric) (metric : Win32_PerfFormattedData_PerfProc_Process) :
    Except Panic (GoMap GoString AppPoolMetric) :=
  match mapGet processMap metric.IDProcess with
  | none => .ok apm
  | some appPoolName => do
    let apm0 := match mapGet apm appPoolName with
      | none => mapSet apm appPoolName AppPoolMetric.zero
      | some _ => apm
    let apm1 ← assignField apm0 appPoolName
      (fun m => { m with percentProcessorTime := float64 metric.PercentProcessorTime })
    let apm2 ← assignField apm1 appPoolName (fun m => { m with privateBytes := metric.PrivateBytes })
    let apm3 ← assignField apm2 appPoolName (fun m => { m with workingSet := metric.WorkingSet })
    let apm4 ← assignField apm3 appPoolName (fun m => { m with handleCount := metric.HandleCount })
    let apm5 ← assignField apm4 appPoolName (fun m => { m with threadCount := metric.ThreadCount })
    let apm6 ← assignField apm5 appPoolName
      (fun m => { m with ioReadBytesPerSec := metric.IOReadBytesPerSec })
    assignField apm6 appPoolName (fun m => { m with ioWriteBytesPerSec := metric.IOWriteBytesPerSec })

/-- The inner loop of `updateAppPoolMetrics` over one batch received from the channel. -/
def updateAppPoolMetrics (processMap : GoMap Nat GoString) :
    GoMap GoString AppPoolMetric → List Win32_PerfFormattedData_PerfProc_Process →
    Except Panic (GoMap GoString AppPoolMetric)
  | apm, [] => .ok apm
  | apm, metric :: metrics =>
    match updateAppPoolMetricsSample processMap apm metric with
    | .error p => .error p
    | .ok apm1 => updateAppPoolMetrics processMap apm1 metrics

/-- The filter of `updateMetrics`: the samples whose process id is a key of the map. -/
def updateMetricsFilter (processMap : GoMap Nat GoString)
    (dst : List Win32_PerfFormattedData_PerfProc_Process) :
    List Win32_PerfFormattedData_PerfProc_Process :=
  dst.filter (fun process => (mapGet processMap process.IDProcess).isSome)

/-- The record `Gather` adds for one entry of `AppPoolMetrics`. -/
def w3wpMetric (appPoolName : GoString) (metrics : AppPoolMetric) : Metric :=
  { measurement := lit "w3wp"
    fields :=
      [ (lit "Processor_Time", .float64 metrics.percentProcessorTime),
        (lit "Private_Bytes", .uint64 metrics.privateBytes),
        (lit "Working_Set", .uint64 metrics.workingSet),
        (lit "Handle_Count", .uint32 metrics.handleCount),
        (lit "Thread_Count", .uint32 metrics.threadCount),
        (lit "IO_Read", .uint64 metrics.ioReadBytesPerSec),
        (lit "IO_Write", .uint64 metrics.ioWriteBytesPerSec) ]
    tags := [(lit "appPool", appPoolName)] }

/-- The method `WinW3wp.Gather`: the accumulator after the call and the returned error.
Go ranges over a map in an unspecified order; the model takes the order of the
association list. -/
def WinW3wp.Gather (w : WinW3wp) (acc : List Metric) : List Metric × Option GoError :=
  (acc ++ w.AppPoolMetrics.map (fun kv => w3wpMetric kv.1 kv.2), none)

/-- The method `WinW3wp.Init`, up to the start of the three goroutines: the plugin
after the call and the returned error. `time.ParseDuration` and `wmi.DefaultClient`
belong to libraries and are parameters. -/
def WinW3wp.Init (parseDuration : GoString → Except GoError Int)
    (defaultClient : Telegraf.WmiClient) (w : WinW3wp) : WinW3wp × Option GoError :=
  let intervalStr := if w.IntervalStr = lit "" then lit "10s" else w.IntervalStr
  match parseDuration intervalStr with
  | .error err => ({ w with IntervalStr := intervalStr, interval := 0 }, some err)
  | .ok d =>
    ({ Log := w.Log
       IntervalStr := intervalStr
       interval := d
       WmiClient := match w.WmiClient with
         | none => some defaultClient
         | some c => some c
       AppPoolMetrics := []
       processMap := []
       metricsChan := none }, none)

/-- The sample of the test `TestWinW3wp`. -/
def testSample : Win32_PerfFormattedData_PerfProc_Process :=
  { IDProcess := 1, Name := lit "test", PercentProcessorTime := 50, PrivateBytes := 1000,
    WorkingSet := 2000, HandleCount := 10, ThreadCount := 20, IOReadBytesPerSec := 3000,
    IOWriteBytesPerSec := 4000 }

/-- A parser that accepts the default interval `10s` (ten seconds, in nanoseconds) and
nothing else; used to evaluate `Init` on a plugin without configured interval. -/
def parseDefaultInterval (s : GoString) : Except GoError Int :=
  if s = lit "10s" then .ok 10000000000 else .error (.errorString (lit "time: invalid duration"))

/-! ## `win_w3wp`: the three goroutines -/

/-- The plugin together with its three goroutines, between two atomic steps. The steps
are interleaved, not overlapped: what the Go runtime does when one goroutine writes a map
while another one accesses it is not modelled. -/
structure Engine where
  /-- the plugin: both maps, the client and the channel -/
  w : WinW3wp
  /-- number of calls of `Query` made so far -/
  calls : Nat
  /-- lines written to `w.Log` -/
  log : List LogEntry
  /-- `updateProcessMap`: the processes its range loop has still to visit -/
  processes : List Win32_Process
  /-- `updateMetrics`: the filtered batch it is about to send on the channel -/
  filteredProcesses : Option (List Win32_PerfFormattedData_PerfProc_Process)
  /-- `updateAppPoolMetrics`: the samples its inner range loop has still to visit -/
  metrics : List Win32_PerfFormattedData_PerfProc_Process
  /-- a panic ends the program -/
  panicked : Option Panic

/-- The atomic steps of the goroutines, one of which the scheduler picks next. -/
inductive Action where
  /-- `updateProcessMap` calls `Query` -/
  | processQuery
  /-- `updateProcessMap` visits the next process of its range loop -/
  | processVisit
  /-- `updateMetrics` calls `Query` and filters the answer -/
  | perfQuery
  /-- `updateMetrics` sends the filtered batch on the channel -/
  | perfSend
  /-- `updateAppPoolMetrics` receives a batch from the channel -/
  | aggregateReceive
  /-- `updateAppPoolMetrics` visits the next sample of the batch -/
  | aggregateVisit
  deriving DecidableEq, Repr

/-- The engine right after a successful `Init`: the goroutines are started and none has
made a step. -/
def Engine.start (w : WinW3wp) : Engine :=
  { w := w, calls := 0, log := [], processes := [], filteredProcesses := none,
    metrics := [], panicked := none }

/-- One atomic step. A step that is not enabled (the goroutine is elsewhere in its loop,
the channel is full or empty, the program has panicked) leaves the engine as it is. A
failed query calls `w.Log.Error`: on a `nil` logger that call panics. -/
def Engine.step (e : Engine) (a : Action) : Engine :=
  match e.panicked with
  | some _ => e
  | none =>
    match a with
    | .processQuery =>
      match e.processes, e.w.WmiClient with
      | [], some client =>
        match client.QueryProcess e.calls with
        | .error err =>
          match e.w.Log with
          | none => { e with calls := e.calls + 1, panicked := some .nilDereference }
          | some _ =>
            { e with calls := e.calls + 1
                     log := e.log ++ [⟨.error, lit "Error querying WMI: ", err⟩] }
        | .ok processes => { e with calls := e.calls + 1, processes := processes }
      | [], none => { e with panicked := some .nilDereference }
      | _ :: _, _ => e
    | .processVisit =>
      match e.processes with
      | [] => e
      | p :: rest =>
        if Contains p.CommandLine (lit "-ap") then
          match getAppPoolNameFromCommandLine p.CommandLine with
          | .error panic => { e with panicked := some panic }
          | .ok appPoolName =>
            { e with w := { e.w with processMap := mapSet e.w.processMap p.ProcessId appPoolName }
                     processes := rest }
        else { e with processes := rest }
    | .perfQuery =>
      match e.filteredProcesses, e.w.WmiClient with
      | none, some client =>
        match client.QueryPerf e.calls with
        | .error err =>
          match e.w.Log with
          | none => { e with calls := e.calls + 1, panicked := some .nilDereference }
          | some _ =>
            { e with calls := e.calls + 1
                     log := e.log ++ [⟨.error, lit "Error querying WMI: ", err⟩] }
        | .ok dst =>
          { e with calls := e.calls + 1
                   filteredProcesses := some (updateMetricsFilter e.w.processMap dst) }
      | none, none => { e with panicked := some .nilDereference }
      | some _, _ => e
    | .perfSend =>
      match e.filteredProcesses, e.w.metricsChan with
      | some batch, none =>
        { e with w := { e.w with metricsChan := some batch }, filteredProcesses := none }
      | _, _ => e
    | .aggregateReceive =>
      match e.metrics, e.w.metricsChan with
      | [], some batch => { e with w := { e.w with metricsChan := none }, metrics := batch }
      | _, _ => e
    | .aggregateVisit =>
      match e.metrics with
      | [] => e
      | metric :: rest =>
        match updateAppPoolMetricsSample e.w.processMap e.w.AppPoolMetrics metric with
        | .error panic => { e with panicked := some panic }
        | .ok apm => { e with w := { e.w with AppPoolMetrics := apm }, metrics := rest }

/-- The engine after the steps of a schedule, in order. -/
def Engine.run (e : Engine) : List Action → Engine
  | [] => e
  | a :: schedule => (e.step a).run schedule

/-- The client `MockWMI` of the test: `Query` fills a destination of performance samples
with one sample and returns an error for any other destination. -/
def MockWMI (sample : Win32_PerfFormattedData_PerfProc_Process) : WmiClient :=
  { QueryProcess := fun _ => .error (.errorString (lit "invalid type passed to Query"))
    QueryPerf := fun _ => .ok [sample] }

/-- The plugin value `WinW3wp{WmiClient: &MockWMI{}}` of the test: every other field has
its zero value, so `Log` is `nil`. -/
def testPlugin (sample : Win32_PerfFormattedData_PerfProc_Process) : WinW3wp :=
  { Log := none, IntervalStr := lit "", AppPoolMetrics := [],
    WmiClient := some (MockWMI sample), interval := 0, processMap := [], metricsChan := none }

/-- With the client of the test the process query always fails: the process map, the
range loop over processes and `AppPoolMetrics` stay empty, that is, no map is ever
written; the logger stays what it was, and the only panic is the call of a `nil`
logger, which cannot occur when a logger is set. -/
def MockInvariant (sample : Win32_PerfFormattedData_PerfProc_Process) (log : Option Logger)
    (e : Engine) : Prop :=
  e.w.processMap = [] ∧ e.w.AppPoolMetrics = [] ∧ e.processes = [] ∧
    e.w.WmiClient = some (MockWMI sample) ∧ e.w.Log = log ∧
    (e.panicked = none ∨ (e.panicked = some .nilDereference ∧ log = none))

/-! ## `win_services`: errors -/

/-- The method `Unwrap` of an error: only the errors built by `fmt.Errorf` with `%w` have
one; `ServiceError` declares `Error` alone. -/
def GoError.Unwrap : GoError → Option GoError
  | .wrap _ err => some err
  | _ => none

/-- The call `errors.As(err, &serviceErr)` for `serviceErr : *ServiceError`: the first error
of the chain of `err` that is a `*ServiceError`. -/
def errorsAsServiceError : GoError → Option GoError
  | .service m s e => some (.service m s e)
  | .wrap _ err => errorsAsServiceError err
  | .errPermission => none
  | .library _ _ => none
  | .errorString _ => none

/-- The call `errors.Is(err, fs.ErrPermission)`: walks the chain of `err` through `Unwrap`,
and at each error compares it with the sentinel and asks its method `Is`, if it has one. -/
def errorsIsErrPermission : GoError → Bool
  | .errPermission => true
  | .library isPermission _ => isPermission
  | .errorString _ => false
  | .wrap _ err => errorsIsErrPermission err
  | .service _ _ _ => false

/-- The function `IsPermission` of `win_services.go`. -/
def IsPermission (err : GoError) : Bool :=
  match errorsAsServiceError err with
  | some serviceErr => errorsIsErrPermission serviceErr
  | none => false

/-! ## `win_services`: data model -/

/-- The part of `svc.Status` the plugin reads. -/
structure Status where
  State : Nat
  deriving DecidableEq, Repr

/-- The part of `mgr.Config` the plugin reads. -/
structure Config where
  DisplayName : GoString
  StartType : Nat
  deriving DecidableEq, Repr

/-- The interface `WinService`; the result of `Close` is not used. -/
structure WinService where
  Config : Except GoError Telegraf.Config
  Query : Except GoError Status

/-- The interface `WinServiceManager`; the result of `Disconnect` is not used. -/
structure WinServiceManager where
  OpenService : GoString → Except GoError WinService
  ListServices : Except GoError (List GoString)

/-- The interface `ManagerProvider`. -/
structure ManagerProvider where
  Connect : Except GoError WinServiceManager

/-- A call made to the service manager or to a service handle. -/
inductive MgrCall where
  | connect
  | disconnect
  | listServices
  | openService (name : GoString)
  | query (name : GoString)
  | config (name : GoString)
  | close (name : GoString)
  deriving DecidableEq, Repr

/-- The interface `filter.Filter`. -/
structure Filter where
  Match : GoString → Bool

/-- The struct `WinServices`; `servicesFilter` is `nil` (`none`) until `Init` sets it. -/
structure WinServices where
  ServiceNames : List GoString
  ServiceNamesExcluded : List GoString
  mgrProvider : ManagerProvider
  servicesFilter : Option Filter

/-- The struct `ServiceInfo`. -/
structure ServiceInfo where
  ServiceName : GoString
  DisplayName : GoString
  State : Int
  StartUpMode : Int
  deriving DecidableEq, Repr

/-- What a call of `WinServices.Gather` leaves behind: a panic if one occurred, the error
returned, the records added to the accumulator, the lines logged and the calls made to the
manager, each in order. -/
structure GatherResult where
  panic : Option Panic
  err : Option GoError
  acc : List Metric
  log : List LogEntry
  calls : List MgrCall
  deriving DecidableEq, Repr

/-! ## `win_services`: the collector -/

/-- The method `WinServices.Init`: the plugin after the call and the returned error.
`strings.ToLower` and `filter.NewIncludeExcludeFilter` are parameters. -/
def WinServices.Init (toLower : GoString → GoString)
    (newIncludeExcludeFilter : List GoString → List GoString → Except GoError Filter)
    (m : WinServices) : WinServices × Option GoError :=
  let servicesInclude := m.ServiceNames.map toLower
  let servicesExclude := m.ServiceNamesExcluded.map toLower
  match newIncludeExcludeFilter servicesInclude servicesExclude with
  | .error err => (m, some err)
  | .ok f => ({ m with servicesFilter := some f }, none)

/-- The loop of `listServices` over the names the manager listed; calling `Match` on a
`nil` filter panics. -/
def listServicesLoop (toLower : GoString → GoString) (servicesFilter : Option Filter) :
    List GoString → List GoString → Except Panic (List GoString)
  | services, [] => .ok services
  | services, name :: names =>
    match servicesFilter with
    | none => .error .nilDereference
    | some f =>
      let n := toLower name
      if f.Match n then listServicesLoop toLower servicesFilter (services ++ [name]) names
      else listServicesLoop toLower servicesFilter services names

/-- The method `WinServices.listServices`. -/
def WinServices.listServices (toLower : GoString → GoString) (m : WinServices)
    (scmgr : WinServiceManager) : Except Panic (Except GoError (List GoString)) :=
  match scmgr.ListServices with
  | .error err => .ok (.error (.wrap (lit "could not list services") err))
  | .ok names =>
    match listServicesLoop toLower m.servicesFilter [] names with
    | .error p => .error p
    | .ok services => .ok (.ok services)

/-- The function `collectServiceInfo`, with the calls it makes; the deferred `Close` runs
on every return that follows a successful open. -/
def collectServiceInfo (scmgr : WinServiceManager) (serviceName : GoString) :
    Except GoError ServiceInfo × List MgrCall :=
  match scmgr.OpenService serviceName with
  | .error err =>
    (.error (.service (lit "could not open service") serviceName err),
      [.openService serviceName])
  | .ok srv =>
    match srv.Query with
    | .error err =>
      (.error (.service (lit "could not query service") serviceName err),
        [.openService serviceName, .query serviceName, .close serviceName])
    | .ok srvStatus =>
      match srv.Config with
      | .error err =>
        (.error (.service (lit "could not get config of service") serviceName err),
          [.openService serviceName, .query serviceName, .config serviceName,
            .close serviceName])
      | .ok srvCfg =>
        (.ok { ServiceName := serviceName
               DisplayName := srvCfg.DisplayName
               StartUpMode := (srvCfg.StartType : Int)
               State := (srvStatus.State : Int) },
          [.openService serviceName, .query serviceName, .config serviceName,
            .close serviceName])

/-- The record `Gather` adds for a service. -/
def serviceMetric (service : ServiceInfo) : Metric :=
  { measurement := lit "win_services"
    fields := [(lit "state", .int service.State), (lit "startup_mode", .int service.StartUpMode)]
    tags :=
      if service.DisplayName.length > 0 then
        [(lit "service_name", service.ServiceName), (lit "display_name", service.DisplayName)]
      else [(lit "service_name", service.ServiceName)] }

/-- The loop of `WinServices.Gather` over the selected service names. -/
def gatherLoop (scmgr : WinServiceManager) : GatherResult → List GoString → GatherResult
  | r, [] => r
  | r, srvName :: serviceNames =>
    match collectServiceInfo scmgr srvName with
    | (.error err, calls) =>
      if IsPermission err then
        gatherLoop scmgr
          { r with log := r.log ++ [⟨.debug, lit "", err⟩], calls := r.calls ++ calls }
          serviceNames
      else
        gatherLoop scmgr
          { r with log := r.log ++ [⟨.error, lit "", err⟩], calls := r.calls ++ calls }
          serviceNames
    | (.ok service, calls) =>
      gatherLoop scmgr
        { r with acc := r.acc ++ [serviceMetric service], calls := r.calls ++ calls }
        serviceNames

/-- The method `WinServices.Gather` on an empty accumulator; the deferred `Disconnect`
is the last call whenever the connection succeeded. The logger `m.Log` is taken to be
set, as the agent sets it on a registered plugin. -/
def WinServices.Gather (toLower : GoString → GoString) (m : WinServices) : GatherResult :=
  match m.mgrProvider.Connect with
  | .error err =>
    { panic := none, err := some (.wrap (lit "could not open service manager") err),
      acc := [], log := [], calls := [.connect] }
  | .ok scmgr =>
    match m.listServices toLower scmgr with
    | .error p =>
      { panic := some p, err := none, acc := [], log := [],
        calls := [.connect, .listServices, .disconnect] }
    | .ok (.error err) =>
      { panic := none, err := some err, acc := [], log := [],
        calls := [.connect, .listServices, .disconnect] }
    | .ok (.ok serviceNames) =>
      let r := gatherLoop scmgr
        { panic := none, err := none, acc := [], log := [], calls := [.connect, .listServices] }
        serviceNames
      { r with calls := r.calls ++ [.disconnect] }

/-- Modelled from the spec: the Identity Filter, `filter.NewIncludeExcludeFilter` of the
repository's package `filter`, which is not among the sources. An empty include list
matches everything that is not excluded; a non-empty include list matches the names that
satisfy an include pattern and no exclude pattern; building fails on a malformed pattern.
The pattern language is a parameter: `compile` gives the matcher of a pattern or fails. -/
def NewIncludeExcludeFilter (compile : GoString → Except GoError (GoString → Bool))
    (includes excludes : List GoString) : Except GoError Filter :=
  match includes.mapM compile, excludes.mapM compile with
  | .error err, _ => .error err
  | .ok _, .error err => .error err
  | .ok inc, .ok exc =>
    .ok ⟨fun name => (inc.isEmpty || inc.any (fun p => p name)) && !(exc.any (fun p => p name))⟩

/-- Modelled from the spec: a pattern without metacharacters matches the names equal to
it (include empty and exclude `x` match everything except the names equal to `x`). -/
def compileLiteral (pattern : GoString) : Except GoError (GoString → Bool) :=
  .ok (fun name => decide (name = pattern))

/-- The function `strings.ToLower` on strings of ASCII bytes: the letters `A` to `Z` are
mapped to `a` to `z`. -/
def toLowerASCII (s : GoString) : GoString :=
  s.map (fun b => if 65 ≤ b ∧ b ≤ 90 then b + 32 else b)

/-- A service handle whose status query and configuration query succeed. -/
def goodService (state startType : Nat) (displayName : GoString) : WinService :=
  { Config := .ok { DisplayName := displayName, StartType := startType }
    Query := .ok { State := state } }

/-- A manager that lists `A`, `B`, `C`: `A` and `C` resolve, `B` cannot be opened. -/
def managerABC (cause : GoError) : WinServiceManager :=
  { ListServices := .ok [lit "A", lit "B", lit "C"]
    OpenService := fun name =>
      if name = lit "A" then .ok (goodService 4 2 (lit "Service A"))
      else if name = lit "C" then .ok (goodService 1 3 (lit ""))
      else .error cause }

/-- A plugin on `managerABC` whose filter matches every name. -/
def pluginABC (cause : GoError) : WinServices :=
  { ServiceNames := [], ServiceNamesExcluded := []
    mgrProvider := { Connect := .ok (managerABC cause) }
    servicesFilter := some ⟨fun _ => true⟩ }

/-- The plugin of the end-to-end scenario: include `svca`, no exclude, on a manager that
lists `svcA`, `SVCB`, `svcC`, all of which resolve. -/
def pluginScenario : WinServices :=
  { ServiceNames := [lit "svca"], ServiceNamesExcluded := []
    mgrProvider :=
      { Connect := .ok
          { ListServices := .ok [lit "svcA", lit "SVCB", lit "svcC"]
            OpenService := fun _ => .ok (goodService 4 2 (lit "")) } }
    servicesFilter := none }

/-- A plugin whose provider cannot connect to the service manager. -/
def pluginConnectFails (cause : GoError) : WinServices :=
  { ServiceNames := [], ServiceNamesExcluded := []
    mgrProvider := { Connect := .error cause }
    servicesFilter := some ⟨fun _ => true⟩ }

/-- A plugin whose manager cannot list the services. -/
def pluginListFails (cause : GoError) : WinServices :=
  { ServiceNames := [], ServiceNamesExcluded := []
    mgrProvider :=
      { Connect := .ok
          { ListServices := .error cause
            OpenService := fun _ => .ok (goodService 4 2 (lit "")) } }
    servicesFilter := some ⟨fun _ => true⟩ }

/-- A client that answers the process query with one worker process of the pool `Pool1`
and the performance query with the sample of the test. -/
def poolClient : WmiClient :=
  { QueryProcess := fun _ =>
      .ok [{ ProcessId := 1, Name := lit "w3wp.exe",
             CommandLine := lit "w3wp.exe -ap \"Pool1\" -v \"v4.0\"" }]
    QueryPerf := fun _ => .ok [testSample] }

/-- The seven values `updateAppPoolMetrics` stores for a sample. -/
def sampleMetric (metric : Win32_PerfFormattedData_PerfProc_Process) : AppPoolMetric :=
  { percentProcessorTime := float64 metric.PercentProcessorTime
    privateBytes := metric.PrivateBytes
    workingSet := metric.WorkingSet
    handleCount := metric.HandleCount
    threadCount := metric.ThreadCount
    ioReadBytesPerSec := metric.IOReadBytesPerSec
    ioWriteBytesPerSec := metric.IOWriteBytesPerSec }

/-! ## Facts about `Index` and slicing -/

theorem lit_ap : lit "-ap" = [45, 97, 112] := by decide

theorem lit_quote : lit "\"" = [34] := by decide

theorem lit_ap_open : lit "-ap \"" = [45, 97, 112, 32, 34] := by decide

theorem lit_empty : lit "" = [] := by decide

theorem Index_nil (substr : GoString) :
    Index [] substr = if substr = [] then 0 else -1 := by
  simp [Index]

theorem Index_cons (c : UInt8) (s substr : GoString) :
    Index (c :: s) substr =
      if substr.isPrefixOf (c :: s) then 0
      else if Index s substr = -1 then -1 else Index s substr + 1 := by
  simp [Index]

theorem Index_ge (s substr : GoString) : -1 ≤ Index s substr := by
  induction s with
  | nil => rw [Index_nil]; split <;> omega
  | cons c s ih =>
    rw [Index_cons]
    split
    · omega
    · split <;> omega

/-- A byte that does not occur in `n` is first found, in `n ++ b :: s`, right after `n`. -/
theorem Index_byte_append (b : UInt8) (n s : GoString) (h : b ∉ n) :
    Index (n ++ b :: s) [b] = (n.length : Int) := by
  induction n with
  | nil => simp [Index, List.isPrefixOf]
  | cons c n ih =>
    have hc : ¬ b = c := fun e => h (by simp [e])
    have hn : b ∉ n := fun e => h (by simp [e])
    have ih2 := ih hn
    have hnot : ¬ ([b] : GoString).isPrefixOf (c :: (n ++ b :: s)) = true := by
      simp [List.isPrefixOf, hc]
    rw [List.cons_append, Index_cons, if_neg hnot, ih2]
    split
    · omega
    · simp

/-- The flag `-ap` is first found right after a text that does not contain it. -/
theorem Index_ap_append (p s : GoString) (h : Index p [45, 97, 112] = -1) :
    Index (p ++ 45 :: 97 :: 112 :: s) [45, 97, 112] = (p.length : Int) := by
  induction p with
  | nil => simp [Index, List.isPrefixOf]
  | cons c p ih =>
    rw [Index_cons] at h
    split at h
    · omega
    · rename_i hpre
      split at h
      · rename_i hp
        have ih2 := ih hp
        have hnot : ¬ ([45, 97, 112] : GoString).isPrefixOf
            (c :: (p ++ 45 :: 97 :: 112 :: s)) = true := by
          match p, hpre with
          | [], _ => simp [List.isPrefixOf]
          | [d], _ => simp [List.isPrefixOf]
          | d :: e :: q, hpre => simpa [List.isPrefixOf] using hpre
        rw [List.cons_append, Index_cons, if_neg hnot, ih2]
        split
        · omega
        · simp
      · have := Index_ge p [45, 97, 112]
        omega

theorem slice_append_mid (p n s : GoString) :
    slice (p ++ n ++ s) (p.length : Int) ((n.length : Int) + (p.length : Int)) = .ok n := by
  unfold slice
  have h : (0 : Int) ≤ p.length ∧ (p.length : Int) ≤ (n.length : Int) + p.length ∧
      (n.length : Int) + p.length ≤ ((p ++ n ++ s).length : Int) := by
    simp only [List.length_append, Nat.cast_add]
    omega
  rw [if_pos h]
  simp

theorem sliceFrom_append (p s : GoString) :
    sliceFrom (p ++ s) (p.length : Int) = .ok s := by
  have := slice_append_mid p s []
  simpa [sliceFrom, add_comm] using this

/-! ## Facts about maps and the aggregation step -/

theorem mapGet_mapSet_self {κ ν : Type} [DecidableEq κ] (m : GoMap κ ν) (k : κ) (v : ν) :
    mapGet (mapSet m k v) k = some v := by
  induction m with
  | nil => simp [mapSet, mapGet]
  | cons e m ih =>
    obtain ⟨k1, v1⟩ := e
    by_cases h : k1 = k
    · simp [mapSet, mapGet, h]
    · simp [mapSet, mapGet, h, ih]

theorem mapGet_mapSet_ne {κ ν : Type} [DecidableEq κ] (m : GoMap κ ν) (k k2 : κ) (v : ν)
    (h : k ≠ k2) : mapGet (mapSet m k v) k2 = mapGet m k2 := by
  induction m with
  | nil => simp [mapSet, mapGet, h]
  | cons e m ih =>
    obtain ⟨k1, v1⟩ := e
    by_cases h1 : k1 = k
    · subst h1
      simp [mapSet, mapGet, h]
    · simp only [mapSet, if_neg h1, mapGet, ih]

theorem mapSet_mapSet {κ ν : Type} [DecidableEq κ] (m : GoMap κ ν) (k : κ) (v v2 : ν) :
    mapSet (mapSet m k v) k v2 = mapSet m k v2 := by
  induction m with
  | nil => simp [mapSet]
  | cons e m ih =>
    obtain ⟨k1, v1⟩ := e
    by_cases h : k1 = k
    · simp [mapSet, h]
    · simp [mapSet, h, ih]

theorem assignField_mapSet (apm : GoMap GoString AppPoolMetric) (k : GoString)
    (v : AppPoolMetric) (f : AppPoolMetric → AppPoolMetric) :
    assignField (mapSet apm k v) k f = .ok (mapSet apm k (f v)) := by
  simp [assignField, mapGet_mapSet_self, mapSet_mapSet]

theorem assignField_present (apm : GoMap GoString AppPoolMetric) (k : GoString)
    (v : AppPoolMetric) (f : AppPoolMetric → AppPoolMetric) (h : mapGet apm k = some v) :
    assignField apm k f = .ok (mapSet apm k (f v)) := by
  simp [assignField, h]

/-- One step of the aggregation: a sample of an unknown process is skipped, a sample of a
known process replaces the entry of its group. -/
theorem updateAppPoolMetricsSample_eq (pm : GoMap Nat GoString)
    (apm : GoMap GoString AppPoolMetric) (s : Win32_PerfFormattedData_PerfProc_Process) :
    updateAppPoolMetricsSample pm apm s =
      match mapGet pm s.IDProcess with
      | none => .ok apm
      | some g => .ok (mapSet apm g (sampleMetric s)) := by
  unfold updateAppPoolMetricsSample
  cases hg : mapGet pm s.IDProcess with
  | none => rfl
  | some g =>
    cases hv : mapGet apm g with
    | none =>
      simp only [hv, bind, Except.bind, assignField_mapSet]
      rfl
    | some v =>
      simp only [hv, bind, Except.bind, assignField_present apm g v _ hv, assignField_mapSet]
      rfl

theorem updateAppPoolMetrics_cons (pm : GoMap Nat GoString)
    (apm : GoMap GoString AppPoolMetric) (s : Win32_PerfFormattedData_PerfProc_Process)
    (rest : List Win32_PerfFormattedData_PerfProc_Process) :
    updateAppPoolMetrics pm apm (s :: rest) =
      match mapGet pm s.IDProcess with
      | none => updateAppPoolMetrics pm apm rest
      | some g => updateAppPoolMetrics pm (mapSet apm g (sampleMetric s)) rest := by
  rw [updateAppPoolMetrics, updateAppPoolMetricsSample_eq]
  cases mapGet pm s.IDProcess <;> rfl

theorem updateAppPoolMetrics_total (pm : GoMap Nat GoString)
    (batch : List Win32_PerfFormattedData_PerfProc_Process) :
    ∀ apm : GoMap GoString AppPoolMetric, ∃ apm1, updateAppPoolMetrics pm apm batch = .ok apm1 := by
  induction batch with
  | nil => intro apm; exact ⟨apm, rfl⟩
  | cons s rest ih =>
    intro apm
    rw [updateAppPoolMetrics_cons]
    cases mapGet pm s.IDProcess with
    | none => exact ih apm
    | some g => exact ih _

theorem updateAppPoolMetrics_append (pm : GoMap Nat GoString)
    (a b : List Win32_PerfFormattedData_PerfProc_Process) :
    ∀ apm apm1 : GoMap GoString AppPoolMetric, updateAppPoolMetrics pm apm a = .ok apm1 →
      updateAppPoolMetrics pm apm (a ++ b) = updateAppPoolMetrics pm apm1 b := by
  induction a with
  | nil =>
    intro apm apm1 h
    simp only [updateAppPoolMetrics, Except.ok.injEq] at h
    simp [h]
  | cons s rest ih =>
    intro apm apm1 h
    rw [updateAppPoolMetrics_cons] at h
    rw [List.cons_append, updateAppPoolMetrics_cons]
    cases hg : mapGet pm s.IDProcess with
    | none => rw [hg] at h; exact ih _ _ h
    | some g => rw [hg] at h; exact ih _ _ h

/-- Samples that do not map to `g` leave the entry of `g` as it is. -/
theorem updateAppPoolMetrics_frame (pm : GoMap Nat GoString) (g : GoString)
    (batch : List Win32_PerfFormattedData_PerfProc_Process)
    (hb : ∀ t ∈ batch, mapGet pm t.IDProcess ≠ some g) :
    ∀ apm apm1 : GoMap GoString AppPoolMetric, updateAppPoolMetrics pm apm batch = .ok apm1 →
      mapGet apm1 g = mapGet apm g := by
  induction batch with
  | nil =>
    intro apm apm1 h
    simp only [updateAppPoolMetrics, Except.ok.injEq] at h
    rw [h]
  | cons s rest ih =>
    intro apm apm1 h
    have hs := hb s (by simp)
    have hrest : ∀ t ∈ rest, mapGet pm t.IDProcess ≠ some g :=
      fun t ht => hb t (by simp [ht])
    rw [updateAppPoolMetrics_cons] at h
    cases hg : mapGet pm s.IDProcess with
    | none => rw [hg] at h; exact ih hrest _ _ h
    | some g1 =>
      rw [hg] at h
      have hne : g1 ≠ g := fun e => hs (by rw [hg, e])
      rw [ih hrest _ _ h, mapGet_mapSet_ne _ _ _ _ hne]

/-- A batch with a sample of group `g` has a last such sample. -/
theorem exists_last_sample (pm : GoMap Nat GoString) (g : GoString)
    (batch : List Win32_PerfFormattedData_PerfProc_Process)
    (h : ∃ s ∈ batch, mapGet pm s.IDProcess = some g) :
    ∃ pre s post, batch = pre ++ s :: post ∧ mapGet pm s.IDProcess = some g ∧
      ∀ t ∈ post, mapGet pm t.IDProcess ≠ some g := by
  induction batch with
  | nil => obtain ⟨s, hs, _⟩ := h; simp at hs
  | cons a rest ih =>
    by_cases hr : ∃ s ∈ rest, mapGet pm s.IDProcess = some g
    · obtain ⟨pre, s, post, he, hs, hpost⟩ := ih hr
      exact ⟨a :: pre, s, post, by simp [he], hs, hpost⟩
    · obtain ⟨s, hs, hsg⟩ := h
      have ha : mapGet pm a.IDProcess = some g := by
        rcases List.mem_cons.mp hs with e | e
        · rw [← e]; exact hsg
        · exact absurd ⟨s, e, hsg⟩ hr
      exact ⟨[], a, rest, rfl, ha, fun t ht e => hr ⟨t, ht, e⟩⟩

theorem updateAppPoolMetrics_filter (pm : GoMap Nat GoString)
    (batch : List Win32_PerfFormattedData_PerfProc_Process) :
    ∀ apm : GoMap GoString AppPoolMetric,
      updateAppPoolMetrics pm apm batch =
        updateAppPoolMetrics pm apm (updateMetricsFilter pm batch) := by
  induction batch with
  | nil => intro apm; rfl
  | cons s rest ih =>
    intro apm
    cases hg : mapGet pm s.IDProcess with
    | none =>
      have hf : updateMetricsFilter pm (s :: rest) = updateMetricsFilter pm rest := by
        simp [updateMetricsFilter, hg]
      rw [hf, updateAppPoolMetrics_cons, hg]
      exact ih apm
    | some g =>
      have hf : updateMetricsFilter pm (s :: rest) = s :: updateMetricsFilter pm rest := by
        simp [updateMetricsFilter, hg]
      rw [hf, updateAppPoolMetrics_cons, updateAppPoolMetrics_cons, hg]
      exact ih _

theorem updateAppPoolMetrics_unknown (pm : GoMap Nat GoString)
    (batch : List Win32_PerfFormattedData_PerfProc_Process)
    (hb : ∀ s ∈ batch, mapGet pm s.IDProcess = none) :
    ∀ apm : GoMap GoString AppPoolMetric, updateAppPoolMetrics pm apm batch = .ok apm := by
  induction batch with
  | nil => intro apm; rfl
  | cons s rest ih =>
    intro apm
    rw [updateAppPoolMetrics_cons, hb s (by simp)]
    exact ih (fun t ht => hb t (by simp [ht])) apm

/-- A successful `Init` leaves both maps and the channel empty. -/
theorem WinW3wp.Init_ok (parseDuration : GoString → Except GoError Int)
    (defaultClient : Telegraf.WmiClient) (w0 w : WinW3wp)
    (hinit : WinW3wp.Init parseDuration defaultClient w0 = (w, none)) :
    w.AppPoolMetrics = [] ∧ w.processMap = [] ∧ w.metricsChan = none := by
  unfold WinW3wp.Init at hinit
  simp only [] at hinit
  generalize parseDuration (if w0.IntervalStr = lit "" then lit "10s" else w0.IntervalStr) = r
    at hinit
  cases r with
  | error e => simp at hinit
  | ok d =>
    simp only [Prod.mk.injEq, and_true] at hinit
    subst hinit
    exact ⟨rfl, rfl, rfl⟩

/-! ## The engine under the client of the test -/

theorem MockInvariant_step (sample : Win32_PerfFormattedData_PerfProc_Process)
    (log : Option Logger) (e : Engine) (a : Action) (h : MockInvariant sample log e) :
    MockInvariant sample log (e.step a) := by
  obtain ⟨hpm, hapm, hproc, hcl, hlog, hpan⟩ := h
  unfold Engine.step
  rcases hp : e.panicked with _ | p
  · cases a with
    | processQuery =>
      cases log with
      | none =>
        simp only [hproc, hcl, MockWMI, hlog]
        exact ⟨hpm, hapm, rfl, hcl, hlog, Or.inr ⟨rfl, rfl⟩⟩
      | some l =>
        simp only [hproc, hcl, MockWMI, hlog]
        exact ⟨hpm, hapm, rfl, hcl, hlog, Or.inl rfl⟩
    | processVisit =>
      simp only [hproc]
      exact ⟨hpm, hapm, hproc, hcl, hlog, Or.inl hp⟩
    | perfQuery =>
      simp only [hcl, MockWMI]
      cases e.filteredProcesses with
      | none => exact ⟨hpm, hapm, hproc, hcl, hlog, Or.inl rfl⟩
      | some b => exact ⟨hpm, hapm, hproc, hcl, hlog, Or.inl hp⟩
    | perfSend =>
      simp only []
      split
      · exact ⟨hpm, hapm, hproc, hcl, hlog, Or.inl rfl⟩
      · exact ⟨hpm, hapm, hproc, hcl, hlog, Or.inl hp⟩
    | aggregateReceive =>
      simp only []
      split
      · exact ⟨hpm, hapm, hproc, hcl, hlog, Or.inl rfl⟩
      · exact ⟨hpm, hapm, hproc, hcl, hlog, Or.inl hp⟩
    | aggregateVisit =>
      simp only []
      split
      · exact ⟨hpm, hapm, hproc, hcl, hlog, Or.inl hp⟩
      · rename_i metric rest hm
        rw [updateAppPoolMetricsSample_eq, hpm]
        simp only [mapGet]
        exact ⟨rfl, hapm, hproc, hcl, hlog, Or.inl rfl⟩
  · exact ⟨hpm, hapm, hproc, hcl, hlog, hpan⟩

theorem MockInvariant_run (sample : Win32_PerfFormattedData_PerfProc_Process)
    (log : Option Logger) (schedule : List Action) :
    ∀ e : Engine, MockInvariant sample log e → MockInvariant sample log (e.run schedule) := by
  induction schedule with
  | nil => intro e h; exact h
  | cons a rest ih => intro e h; exact ih _ (MockInvariant_step sample log e a h)

/-! ## Facts about the service collector -/

theorem listServicesLoop_some (toLower : GoString → GoString) (f : Filter)
    (names : List GoString) :
    ∀ services : List GoString,
      listServicesLoop toLower (some f) services names =
        .ok (services ++ names.filter (fun name => f.Match (toLower name))) := by
  induction names with
  | nil => intro services; simp [listServicesLoop]
  | cons name names ih =>
    intro services
    by_cases h : f.Match (toLower name) = true
    · simp [listServicesLoop, h, ih]
    · simp [listServicesLoop, h, ih]

/-- The loop of `Gather` adds, in order, the record of each service that resolves, and
neither panics nor sets an error. -/
theorem gatherLoop_acc (scmgr : WinServiceManager) (g : GoString → Option Metric)
    (hg : ∀ name, g name =
      match (collectServiceInfo scmgr name).1 with
      | .ok service => some (serviceMetric service)
      | .error _ => none)
    (serviceNames : List GoString) :
    ∀ r : GatherResult,
      (gatherLoop scmgr r serviceNames).acc = r.acc ++ serviceNames.filterMap g ∧
      (gatherLoop scmgr r serviceNames).err = r.err ∧
      (gatherLoop scmgr r serviceNames).panic = r.panic := by
  induction serviceNames with
  | nil => intro r; simp [gatherLoop]
  | cons name rest ih =>
    intro r
    have hname := hg name
    rw [gatherLoop]
    rcases hc : collectServiceInfo scmgr name with ⟨res, calls⟩
    rw [hc] at hname
    cases res with
    | error err =>
      simp only [] at hname
      simp only [List.filterMap_cons, hname]
      split
      · obtain ⟨h1, h2, h3⟩ := ih { r with log := r.log ++ [⟨.debug, lit "", err⟩],
                                           calls := r.calls ++ calls }
        exact ⟨h1, h2, h3⟩
      · obtain ⟨h1, h2, h3⟩ := ih { r with log := r.log ++ [⟨.error, lit "", err⟩],
                                           calls := r.calls ++ calls }
        exact ⟨h1, h2, h3⟩
    | ok service =>
      simp only [] at hname
      simp only [List.filterMap_cons, hname]
      obtain ⟨h1, h2, h3⟩ := ih { r with acc := r.acc ++ [serviceMetric service],
                                         calls := r.calls ++ calls }
      refine ⟨?_, h2, h3⟩
      rw [h1]
      simp

/-- The engine does aggregate when the process query answers: with one worker process of
`Pool1` and one round of the three goroutines, `Gather` emits the record of `Pool1`. -/
theorem engine_gathers_known_process :
    WinW3wp.Gather
        ((Engine.start
            (WinW3wp.Init parseDefaultInterval poolClient
              { testPlugin testSample with WmiClient := some poolClient }).1).run
          [.processQuery, .processVisit, .perfQuery, .perfSend, .aggregateReceive,
            .aggregateVisit]).w [] =
      ([w3wpMetric (lit "Pool1") (sampleMetric testSample)], none) := by
  rfl

/-- Without the flag the extraction returns the empty string. -/
theorem getAppPoolName_absent (commandLine : GoString)
    (h : Contains commandLine (lit "-ap") = false) :
    getAppPoolNameFromCommandLine commandLine = .ok (lit "") := by
  have h0 := Index_ge commandLine (lit "-ap")
  have h1 : ¬ 0 ≤ Index commandLine (lit "-ap") := by simpa [Contains] using h
  have h2 : Index commandLine (lit "-ap") = -1 := by omega
  simp [getAppPoolNameFromCommandLine, h2]

/-! ## Claims -/

/-- C1: on a command line `P ++ "-ap \"" ++ N ++ "\"" ++ S` where `P` does not contain
`-ap` and `N` contains no double quote, `getAppPoolNameFromCommandLine` returns
exactly `N`. -/
theorem getAppPoolName_extracts (P N S : GoString)
    (hP : Contains P (lit "-ap") = false) (hN : (34 : UInt8) ∉ N) :
    getAppPoolNameFromCommandLine (P ++ lit "-ap \"" ++ N ++ lit "\"" ++ S) = .ok N := by
  have hP1 : Index P [45, 97, 112] = -1 := by
    have h0 := Index_ge P [45, 97, 112]
    have h1 : ¬ 0 ≤ Index P [45, 97, 112] := by simpa [Contains, lit_ap] using hP
    omega
  have hshape : P ++ lit "-ap \"" ++ N ++ lit "\"" ++ S
      = P ++ 45 :: 97 :: 112 :: (32 :: 34 :: (N ++ 34 :: S)) := by
    simp [lit_ap_open, lit_quote]
  have hshape2 : P ++ lit "-ap \"" ++ N ++ lit "\"" ++ S
      = (P ++ [45, 97, 112, 32, 34]) ++ N ++ (34 :: S) := by
    simp [lit_ap_open, lit_quote]
  have hidx := Index_ap_append P (32 :: 34 :: (N ++ 34 :: S)) hP1
  have hlen : ((P ++ [45, 97, 112, 32, 34] : GoString).length : Int) = (P.length : Int) + 3 + 2 := by
    simp only [List.length_append, List.length_cons, List.length_nil, Nat.cast_add]
    omega
  have hrest : sliceFrom (P ++ lit "-ap \"" ++ N ++ lit "\"" ++ S) ((P.length : Int) + 3 + 2)
      = .ok (N ++ 34 :: S) := by
    rw [hshape2, ← hlen, List.append_assoc]
    exact sliceFrom_append _ _
  have hend : slice (P ++ lit "-ap \"" ++ N ++ lit "\"" ++ S) ((P.length : Int) + 3 + 2)
      ((N.length : Int) + ((P.length : Int) + 3 + 2)) = .ok N := by
    rw [hshape2, ← hlen]
    exact slice_append_mid _ _ _
  have hne : ¬ (P.length : Int) = -1 := by omega
  rw [hshape] at hrest hend ⊢
  unfold getAppPoolNameFromCommandLine
  simp only [lit_ap, lit_quote, List.length_cons, List.length_nil]
  rw [hidx]
  simp only [if_neg hne]
  have h3 : ((0 + 1 + 1 + 1 : Nat) : Int) = 3 := by norm_num
  rw [h3, hrest]
  simp only [Index_byte_append 34 N S hN]
  exact hend

/-- Witness of C1: `w3wp.exe -ap "Pool1" -v "v4.0"` gives `Pool1`. -/
theorem getAppPoolName_extracts_witness :
    lit "w3wp.exe " ++ lit "-ap \"" ++ lit "Pool1" ++ lit "\"" ++ lit " -v \"v4.0\""
        = lit "w3wp.exe -ap \"Pool1\" -v \"v4.0\"" ∧
      getAppPoolNameFromCommandLine
        (lit "w3wp.exe " ++ lit "-ap \"" ++ lit "Pool1" ++ lit "\"" ++ lit " -v \"v4.0\"")
        = .ok (lit "Pool1") :=
  ⟨by decide,
   getAppPoolName_extracts (lit "w3wp.exe ") (lit "Pool1") (lit " -v \"v4.0\"")
    (by decide) (by decide)⟩

/-- C2: aggregation is last-write-wins per group within a batch. Every group `g` that a
sample of the batch maps to has a last such sample, and after `updateAppPoolMetrics`
has processed the batch the entry of `g` holds exactly the seven values of that last
sample, whatever the state before and whatever the earlier samples of the batch. -/
theorem updateAppPoolMetrics_last_write_wins (pm : GoMap Nat GoString)
    (apm : GoMap GoString AppPoolMetric)
    (batch : List Win32_PerfFormattedData_PerfProc_Process) (g : GoString)
    (h : ∃ s ∈ batch, mapGet pm s.IDProcess = some g) :
    (∃ pre s post, batch = pre ++ s :: post ∧ mapGet pm s.IDProcess = some g ∧
      ∀ t ∈ post, mapGet pm t.IDProcess ≠ some g) ∧
    ∀ pre s post, batch = pre ++ s :: post → mapGet pm s.IDProcess = some g →
      (∀ t ∈ post, mapGet pm t.IDProcess ≠ some g) →
      ∃ apm1, updateAppPoolMetrics pm apm batch = .ok apm1 ∧
        mapGet apm1 g = some
          { percentProcessorTime := float64 s.PercentProcessorTime
            privateBytes := s.PrivateBytes
            workingSet := s.WorkingSet
            handleCount := s.HandleCount
            threadCount := s.ThreadCount
            ioReadBytesPerSec := s.IOReadBytesPerSec
            ioWriteBytesPerSec := s.IOWriteBytesPerSec } := by
  refine ⟨exists_last_sample pm g batch h, ?_⟩
  intro pre s post he hs hpost
  obtain ⟨apm0, h0⟩ := updateAppPoolMetrics_total pm pre apm
  obtain ⟨apm1, h1⟩ := updateAppPoolMetrics_total pm post (mapSet apm0 g (sampleMetric s))
  refine ⟨apm1, ?_, ?_⟩
  · rw [he, updateAppPoolMetrics_append pm pre (s :: post) apm apm0 h0,
      updateAppPoolMetrics_cons, hs]
    exact h1
  · rw [updateAppPoolMetrics_frame pm g post hpost _ _ h1, mapGet_mapSet_self]
    rfl

/-- Witness of C2: two samples of the group `Pool1` and one of an unknown process in
between; the entry holds the values of the second sample of the group. -/
theorem updateAppPoolMetrics_last_write_wins_witness :
    ∃ apm1,
      updateAppPoolMetrics [(1, lit "Pool1"), (2, lit "Pool1")]
        [(lit "Pool1", ⟨⟨7⟩, 7, 7, 7, 7, 7, 7⟩)]
        [testSample, { testSample with IDProcess := 3 },
          { testSample with IDProcess := 2, PercentProcessorTime := 60, PrivateBytes := 1 }]
        = .ok apm1 ∧
      mapGet apm1 (lit "Pool1") = some
        { percentProcessorTime := float64 60, privateBytes := 1, workingSet := 2000,
          handleCount := 10, threadCount := 20, ioReadBytesPerSec := 3000,
          ioWriteBytesPerSec := 4000 } :=
  (updateAppPoolMetrics_last_write_wins [(1, lit "Pool1"), (2, lit "Pool1")]
      [(lit "Pool1", ⟨⟨7⟩, 7, 7, 7, 7, 7, 7⟩)]
      [testSample, { testSample with IDProcess := 3 },
        { testSample with IDProcess := 2, PercentProcessorTime := 60, PrivateBytes := 1 }]
      (lit "Pool1") ⟨testSample, by decide, by decide⟩).2
    [testSample, { testSample with IDProcess := 3 }]
    { testSample with IDProcess := 2, PercentProcessorTime := 60, PrivateBytes := 1 } []
    rfl (by decide) (by simp)

/-- C3: a sample whose process id is not a key of the process map has no effect.
Aggregating a batch gives the same `AppPoolMetrics` as aggregating the batch without
the samples of unknown processes, and a batch made only of such samples leaves
`AppPoolMetrics`, and so what `Gather` emits, unchanged. -/
theorem updateAppPoolMetrics_ignores_unknown (w : WinW3wp)
    (batch : List Win32_PerfFormattedData_PerfProc_Process) (acc : List Metric) :
    updateAppPoolMetrics w.processMap w.AppPoolMetrics batch =
        updateAppPoolMetrics w.processMap w.AppPoolMetrics
          (batch.filter (fun s => (mapGet w.processMap s.IDProcess).isSome)) ∧
      ((∀ s ∈ batch, mapGet w.processMap s.IDProcess = none) →
        ∃ apm1, updateAppPoolMetrics w.processMap w.AppPoolMetrics batch = .ok apm1 ∧
          apm1 = w.AppPoolMetrics ∧
          WinW3wp.Gather { w with AppPoolMetrics := apm1 } acc = WinW3wp.Gather w acc) := by
  refine ⟨updateAppPoolMetrics_filter w.processMap batch w.AppPoolMetrics, ?_⟩
  intro hb
  exact ⟨w.AppPoolMetrics, updateAppPoolMetrics_unknown w.processMap batch hb _, rfl, rfl⟩

/-- Witness of C3: the process map knows process 1 only, the batch has a sample of
process 3 only. -/
theorem updateAppPoolMetrics_ignores_unknown_witness :
    ∃ apm1,
      updateAppPoolMetrics [(1, lit "Pool1")] [(lit "Pool1", ⟨⟨7⟩, 7, 7, 7, 7, 7, 7⟩)]
        [{ testSample with IDProcess := 3 }] = .ok apm1 ∧
      apm1 = [(lit "Pool1", ⟨⟨7⟩, 7, 7, 7, 7, 7, 7⟩)] ∧
      WinW3wp.Gather
          { IntervalStr := lit "10s", AppPoolMetrics := apm1, WmiClient := none,
            interval := 10000000000, processMap := [(1, lit "Pool1")],
            metricsChan := none } [] =
        WinW3wp.Gather
          { IntervalStr := lit "10s",
            AppPoolMetrics := [(lit "Pool1", ⟨⟨7⟩, 7, 7, 7, 7, 7, 7⟩)], WmiClient := none,
            interval := 10000000000, processMap := [(1, lit "Pool1")],
            metricsChan := none } [] :=
  (updateAppPoolMetrics_ignores_unknown
      { IntervalStr := lit "10s",
        AppPoolMetrics := [(lit "Pool1", ⟨⟨7⟩, 7, 7, 7, 7, 7, 7⟩)], WmiClient := none,
        interval := 10000000000, processMap := [(1, lit "Pool1")], metricsChan := none }
      [{ testSample with IDProcess := 3 }] []).2 (by decide)

/-- C4: from the empty `AppPoolMetrics` made by `Init` and the process map `{p -> g}`,
aggregating the batch `[s]` with `s.IDProcess = p` and then calling `Gather` returns nil
and emits exactly one record: measurement `w3wp`, tags `{appPool: g}` and the seven
fields copied from `s`, the processor time converted to `float64`. -/
theorem gather_after_one_sample (parseDuration : GoString → Except GoError Int)
    (defaultClient : WmiClient) (w0 w : WinW3wp) (p : Nat) (g : GoString)
    (s : Win32_PerfFormattedData_PerfProc_Process)
    (hinit : WinW3wp.Init parseDuration defaultClient w0 = (w, none))
    (hs : s.IDProcess = p) :
    ∃ apm1, updateAppPoolMetrics [(p, g)] w.AppPoolMetrics [s] = .ok apm1 ∧
      WinW3wp.Gather { w with processMap := [(p, g)], AppPoolMetrics := apm1 } [] =
        ([{ measurement := lit "w3wp"
            tags := [(lit "appPool", g)]
            fields :=
              [ (lit "Processor_Time", .float64 (float64 s.PercentProcessorTime)),
                (lit "Private_Bytes", .uint64 s.PrivateBytes),
                (lit "Working_Set", .uint64 s.WorkingSet),
                (lit "Handle_Count", .uint32 s.HandleCount),
                (lit "Thread_Count", .uint32 s.ThreadCount),
                (lit "IO_Read", .uint64 s.IOReadBytesPerSec),
                (lit "IO_Write", .uint64 s.IOWriteBytesPerSec) ] }], none) := by
  have hempty : w.AppPoolMetrics = [] := (WinW3wp.Init_ok _ _ _ _ hinit).1
  refine ⟨[(g, sampleMetric s)], ?_, ?_⟩
  · rw [hempty, updateAppPoolMetrics_cons]
    simp [mapGet, hs, mapSet, updateAppPoolMetrics]
  · simp [WinW3wp.Gather, w3wpMetric, sampleMetric]

/-- Witness of C4: process 1, group `Pool1`, values 50, 1000, 2000, 10, 20, 3000, 4000. -/
theorem gather_after_one_sample_witness :
    ∃ apm1, updateAppPoolMetrics [(1, lit "Pool1")] [] [testSample] = .ok apm1 ∧
      WinW3wp.Gather
          { IntervalStr := lit "10s", AppPoolMetrics := apm1,
            WmiClient := some ⟨fun _ => .ok [], fun _ => .ok []⟩,
            interval := 10000000000, processMap := [(1, lit "Pool1")],
            metricsChan := none } [] =
        ([{ measurement := lit "w3wp"
            tags := [(lit "appPool", lit "Pool1")]
            fields :=
              [ (lit "Processor_Time", .float64 ⟨50⟩),
                (lit "Private_Bytes", .uint64 1000),
                (lit "Working_Set", .uint64 2000),
                (lit "Handle_Count", .uint32 10),
                (lit "Thread_Count", .uint32 20),
                (lit "IO_Read", .uint64 3000),
                (lit "IO_Write", .uint64 4000) ] }], none) :=
  gather_after_one_sample parseDefaultInterval ⟨fun _ => .ok [], fun _ => .ok []⟩
    { IntervalStr := lit "", AppPoolMetrics := [], WmiClient := none, interval := 0,
      processMap := [], metricsChan := none }
    { IntervalStr := lit "10s", AppPoolMetrics := [],
      WmiClient := some ⟨fun _ => .ok [], fun _ => .ok []⟩,
      interval := 10000000000, processMap := [], metricsChan := none }
    1 (lit "Pool1") testSample rfl rfl

/-- C5 (the code against its test): with the plugin value and the client of
`TestWinW3wp`, whatever the one sample the client answers, `Init` returns no error and
leaves the `nil` logger of that value. The process query of the client fails, so the
first step of `updateProcessMap` calls `Error` on the `nil` logger and the program
panics. After any number of steps of the three goroutines, in any order, no process id
has been mapped and `AppPoolMetrics` is empty, so a `Gather` that still runs returns no
error and emits no record at all, where the test expects exactly one. With a logger set
on the plugin nothing panics and `Gather` emits no record either. -/
theorem testWinW3wp_gathers_nothing (defaultClient : WmiClient)
    (sample : Win32_PerfFormattedData_PerfProc_Process) (schedule : List Action) :
    ∃ w, WinW3wp.Init parseDefaultInterval defaultClient (testPlugin sample) = (w, none) ∧
      w.Log = none ∧
      ((Engine.start w).run [.processQuery]).panicked = some .nilDereference ∧
      (((Engine.start w).run schedule).panicked = none ∨
        ((Engine.start w).run schedule).panicked = some .nilDereference) ∧
      ((Engine.start w).run schedule).w.processMap = [] ∧
      WinW3wp.Gather ((Engine.start w).run schedule).w [] = ([], none) ∧
      ∀ logger : Logger,
        ((Engine.start { w with Log := some logger }).run schedule).panicked = none ∧
        ((Engine.start { w with Log := some logger }).run schedule).w.processMap = [] ∧
        WinW3wp.Gather ((Engine.start { w with Log := some logger }).run schedule).w []
          = ([], none) := by
  refine ⟨(WinW3wp.Init parseDefaultInterval defaultClient (testPlugin sample)).1, rfl, rfl,
    rfl, ?_⟩
  have h := MockInvariant_run sample none schedule
    (Engine.start (WinW3wp.Init parseDefaultInterval defaultClient (testPlugin sample)).1)
    ⟨rfl, rfl, rfl, rfl, rfl, Or.inl rfl⟩
  obtain ⟨hpm, hapm, _, _, _, hpan⟩ := h
  refine ⟨?_, hpm, ?_, ?_⟩
  · rcases hpan with hp | ⟨hp, _⟩
    · exact Or.inl hp
    · exact Or.inr hp
  · unfold WinW3wp.Gather
    rw [hapm]
    rfl
  · intro logger
    have h2 := MockInvariant_run sample (some logger) schedule
      (Engine.start
        { (WinW3wp.Init parseDefaultInterval defaultClient (testPlugin sample)).1 with
          Log := some logger })
      ⟨rfl, rfl, rfl, rfl, rfl, Or.inl rfl⟩
    obtain ⟨hpm2, hapm2, _, _, _, hpan2⟩ := h2
    refine ⟨?_, hpm2, ?_⟩
    · rcases hpan2 with hp | ⟨_, hn⟩
      · exact hp
      · exact absurd hn (by simp)
    · unfold WinW3wp.Gather
      rw [hapm2]
      rfl

/-- C6: partial-failure isolation. When the connection and the listing succeed, `Gather`
returns nil and its output is, in listing order, exactly one `win_services` record for
each selected service whose open, status query and configuration query all succeed, with
`state` and `startup_mode` the integer codes returned, and no record for a service where
one of the three fails. -/
theorem gather_partial_failure_isolation (toLower : GoString → GoString) (m : WinServices)
    (scmgr : WinServiceManager) (selected : List GoString)
    (hconn : m.mgrProvider.Connect = .ok scmgr)
    (hsel : m.listServices toLower scmgr = .ok (.ok selected)) :
    (m.Gather toLower).panic = none ∧ (m.Gather toLower).err = none ∧
      (m.Gather toLower).acc = selected.filterMap (fun name =>
        match scmgr.OpenService name with
        | .error _ => none
        | .ok srv =>
          match srv.Query, srv.Config with
          | .ok srvStatus, .ok srvCfg =>
            some { measurement := lit "win_services"
                   fields := [(lit "state", .int (srvStatus.State : Int)),
                              (lit "startup_mode", .int (srvCfg.StartType : Int))]
                   tags :=
                     if srvCfg.DisplayName.length > 0 then
                       [(lit "service_name", name), (lit "display_name", srvCfg.DisplayName)]
                     else [(lit "service_name", name)] }
          | _, _ => none) := by
  have hloop := gatherLoop_acc scmgr (fun name =>
        match scmgr.OpenService name with
        | .error _ => none
        | .ok srv =>
          match srv.Query, srv.Config with
          | .ok srvStatus, .ok srvCfg =>
            some { measurement := lit "win_services"
                   fields := [(lit "state", .int (srvStatus.State : Int)),
                              (lit "startup_mode", .int (srvCfg.StartType : Int))]
                   tags :=
                     if srvCfg.DisplayName.length > 0 then
                       [(lit "service_name", name), (lit "display_name", srvCfg.DisplayName)]
                     else [(lit "service_name", name)] }
          | _, _ => none) (fun name => by
      simp only []
      unfold collectServiceInfo
      rcases ho : scmgr.OpenService name with e | srv
      · rfl
      · rcases hq : srv.Query with e | st <;> rcases hc : srv.Config with e | cfg <;>
          (simp only [hq, hc]; try rfl)) selected
    { panic := none, err := none, acc := [], log := [], calls := [.connect, .listServices] }
  obtain ⟨h1, h2, h3⟩ := hloop
  unfold WinServices.Gather
  rw [hconn]
  simp only [hsel]
  exact ⟨h3, h2, by simpa using h1⟩

/-- Witness of C6: `B` fails to open while `A` and `C` resolve; the output is exactly the
records of `A` and `C`. -/
theorem gather_partial_failure_isolation_witness :
    ((pluginABC .errPermission).Gather toLowerASCII).panic = none ∧
      ((pluginABC .errPermission).Gather toLowerASCII).err = none ∧
      ((pluginABC .errPermission).Gather toLowerASCII).acc =
        [ { measurement := lit "win_services"
            fields := [(lit "state", .int 4), (lit "startup_mode", .int 2)]
            tags := [(lit "service_name", lit "A"), (lit "display_name", lit "Service A")] },
          { measurement := lit "win_services"
            fields := [(lit "state", .int 1), (lit "startup_mode", .int 3)]
            tags := [(lit "service_name", lit "C")] } ] :=
  gather_partial_failure_isolation toLowerASCII (pluginABC .errPermission)
    (managerABC .errPermission) [lit "A", lit "B", lit "C"] rfl rfl

/-- C7 (the code against the claim): `IsPermission` answers false for every
`ServiceError`, whatever its cause, also when the cause is `fs.ErrPermission`:
`ServiceError` has no method `Unwrap`, so `errors.Is` never reaches the cause. On a
service that cannot be opened for lack of permission, `Gather` logs the error at error
severity and nothing at debug severity. -/
theorem IsPermission_never_true (Message Service : GoString) (Err : GoError) :
    IsPermission (.service Message Service Err) = false ∧
      (collectServiceInfo (managerABC .errPermission) (lit "B")).1 =
        .error (.service (lit "could not open service") (lit "B") .errPermission) ∧
      ((pluginABC .errPermission).Gather toLowerASCII).log =
        [⟨.error, lit "", .service (lit "could not open service") (lit "B") .errPermission⟩] :=
  ⟨rfl, rfl, rfl⟩

/-- C8: service selection is case-insensitive. After a successful `Init` there is a
selection `sel` of names that depends on a name only through its lower-casing, such
that `listServices` returns exactly the listed names that `sel` selects, with their
original casing and in listing order; and a plugin configured with include and exclude
entries that differ from the configured ones in letter case only selects the same. -/
theorem listServices_case_insensitive (toLower : GoString → GoString)
    (newIncludeExcludeFilter : List GoString → List GoString → Except GoError Filter)
    (m mi : WinServices)
    (hinit : m.Init toLower newIncludeExcludeFilter = (mi, none)) :
    ∃ sel : GoString → Bool,
      (∀ a b, toLower a = toLower b → sel a = sel b) ∧
      ∀ (scmgr : WinServiceManager) (names : List GoString),
        scmgr.ListServices = .ok names →
        mi.listServices toLower scmgr = .ok (.ok (names.filter sel)) ∧
        ∀ m2 : WinServices,
          m2.ServiceNames.map toLower = m.ServiceNames.map toLower →
          m2.ServiceNamesExcluded.map toLower = m.ServiceNamesExcluded.map toLower →
          ∃ mi2, m2.Init toLower newIncludeExcludeFilter = (mi2, none) ∧
            mi2.listServices toLower scmgr = .ok (.ok (names.filter sel)) := by
  unfold WinServices.Init at hinit
  simp only [] at hinit
  rcases hf : newIncludeExcludeFilter (m.ServiceNames.map toLower)
      (m.ServiceNamesExcluded.map toLower) with e | f
  · rw [hf] at hinit
    simp at hinit
  · rw [hf] at hinit
    simp only [Prod.mk.injEq, and_true] at hinit
    subst hinit
    refine ⟨fun name => f.Match (toLower name), ?_, ?_⟩
    · intro a b hab
      simp only [hab]
    · intro scmgr names hlist
      refine ⟨?_, ?_⟩
      · simp [WinServices.listServices, hlist, listServicesLoop_some]
      · intro m2 h1 h2
        refine ⟨{ m2 with servicesFilter := some f }, ?_, ?_⟩
        · simp [WinServices.Init, h1, h2, hf]
        · simp [WinServices.listServices, hlist, listServicesLoop_some]

/-- Witness of C8: the manager lists `svcA`, `SVCB`, `svcC`, the include list is `svca`
and the exclude list is empty; exactly `svcA` is selected, and writing the include
entry `SVCA` instead selects the same. -/
theorem listServices_case_insensitive_witness :
    (∃ sel : GoString → Bool,
      (∀ a b, toLowerASCII a = toLowerASCII b → sel a = sel b) ∧
      ∀ (scmgr : WinServiceManager) (names : List GoString),
        scmgr.ListServices = .ok names →
        WinServices.listServices toLowerASCII
            (pluginScenario.Init toLowerASCII (NewIncludeExcludeFilter compileLiteral)).1 scmgr
          = .ok (.ok (names.filter sel)) ∧
        ∀ m2 : WinServices,
          m2.ServiceNames.map toLowerASCII = pluginScenario.ServiceNames.map toLowerASCII →
          m2.ServiceNamesExcluded.map toLowerASCII =
            pluginScenario.ServiceNamesExcluded.map toLowerASCII →
          ∃ mi2, m2.Init toLowerASCII (NewIncludeExcludeFilter compileLiteral) = (mi2, none) ∧
            mi2.listServices toLowerASCII scmgr = .ok (.ok (names.filter sel))) ∧
      (pluginScenario.Init toLowerASCII (NewIncludeExcludeFilter compileLiteral)).2 = none ∧
      WinServices.listServices toLowerASCII
          (pluginScenario.Init toLowerASCII (NewIncludeExcludeFilter compileLiteral)).1
          { ListServices := .ok [lit "svcA", lit "SVCB", lit "svcC"]
            OpenService := fun _ => .ok (goodService 4 2 (lit "")) }
        = .ok (.ok [lit "svcA"]) ∧
      WinServices.listServices toLowerASCII
          ({ pluginScenario with ServiceNames := [lit "SVCA"] }.Init toLowerASCII
            (NewIncludeExcludeFilter compileLiteral)).1
          { ListServices := .ok [lit "svcA", lit "SVCB", lit "svcC"]
            OpenService := fun _ => .ok (goodService 4 2 (lit "")) }
        = .ok (.ok [lit "svcA"]) :=
  ⟨listServices_case_insensitive toLowerASCII (NewIncludeExcludeFilter compileLiteral)
      pluginScenario _ rfl, rfl, rfl, rfl⟩

/-- C9: a failure to enumerate the services is fatal for the cycle. If connecting to the
service manager or `ListServices` returns an error, `Gather` returns an error that wraps
that cause, adds no record and opens no service. -/
theorem gather_enumeration_failure_fatal (toLower : GoString → GoString) (m : WinServices)
    (cause : GoError)
    (h : m.mgrProvider.Connect = .error cause ∨
      ∃ scmgr, m.mgrProvider.Connect = .ok scmgr ∧ scmgr.ListServices = .error cause) :
    (∃ e, (m.Gather toLower).err = some e ∧ e.Unwrap = some cause) ∧
      (m.Gather toLower).panic = none ∧
      (m.Gather toLower).acc = [] ∧
      ∀ name, MgrCall.openService name ∉ (m.Gather toLower).calls := by
  rcases h with h | ⟨scmgr, hc, hl⟩
  · simp [WinServices.Gather, h, GoError.Unwrap]
  · simp [WinServices.Gather, hc, WinServices.listServices, hl, GoError.Unwrap]

/-- Witness of C9: the connection fails with `fs.ErrPermission`. -/
theorem gather_enumeration_failure_fatal_witness :
    ((∃ e, ((pluginConnectFails .errPermission).Gather toLowerASCII).err = some e ∧
        e.Unwrap = some .errPermission) ∧
      ((pluginConnectFails .errPermission).Gather toLowerASCII).panic = none ∧
      ((pluginConnectFails .errPermission).Gather toLowerASCII).acc = [] ∧
      ∀ name, MgrCall.openService name ∉
        ((pluginConnectFails .errPermission).Gather toLowerASCII).calls) ∧
    ((pluginListFails .errPermission).Gather toLowerASCII).err =
      some (.wrap (lit "could not list services") .errPermission) :=
  ⟨gather_enumeration_failure_fatal toLowerASCII (pluginConnectFails .errPermission)
      .errPermission (Or.inl rfl), rfl⟩

/-- C10 (the code against its documentation): when the flag `-ap` is present without a
double-quoted value after it, `getAppPoolNameFromCommandLine` does not return the empty
string: on a command line that ends with the flag, and on one whose value has no closing
quote, a slice expression is out of range and the function panics, which ends the
program from inside `updateProcessMap`. -/
theorem getAppPoolName_panics_without_value :
    getAppPoolNameFromCommandLine (lit "w3wp.exe -ap") = .error .sliceBounds ∧
      getAppPoolNameFromCommandLine (lit "w3wp.exe -ap \"Pool1") = .error .sliceBounds ∧
      Contains (lit "w3wp.exe -ap") (lit "-ap") = true ∧
      ((Engine.mk (testPlugin testSample) 0 []
          [{ ProcessId := 1, Name := lit "w3wp.exe", CommandLine := lit "w3wp.exe -ap" }]
          none [] none).step .processVisit).panicked = some .sliceBounds :=
  ⟨rfl, rfl, rfl, rfl⟩

/-- C11 (the code against its documentation): the extraction takes the first place where
the bytes `-ap` occur, not the flag token. On `C:\my-apps\w3wp.exe -ap "Pool1"` the flag
is its own token followed by its quoted value `Pool1`, but the bytes `-ap` first occur
inside `my-apps`, at index 5: the function returns the text between that place plus five
bytes and the next double quote, which is not `Pool1`, and `updateProcessMap` records the
process under that text. -/
theorem getAppPoolName_first_occurrence_wins :
    lit "C:\\my-apps\\w3wp.exe" ++ lit " -ap \"" ++ lit "Pool1" ++ lit "\""
        = lit "C:\\my-apps\\w3wp.exe -ap \"Pool1\"" ∧
      (34 : UInt8) ∉ lit "Pool1" ∧
      Index (lit "C:\\my-apps\\w3wp.exe -ap \"Pool1\"") (lit "-ap") = 5 ∧
      getAppPoolNameFromCommandLine (lit "C:\\my-apps\\w3wp.exe -ap \"Pool1\"")
        = .ok (lit "\\w3wp.exe -ap ") ∧
      getAppPoolNameFromCommandLine (lit "C:\\my-apps\\w3wp.exe -ap \"Pool1\"")
        ≠ .ok (lit "Pool1") ∧
      ((Engine.mk (testPlugin testSample) 0 []
          [{ ProcessId := 1, Name := lit "w3wp.exe",
             CommandLine := lit "C:\\my-apps\\w3wp.exe -ap \"Pool1\"" }]
          none [] none).step .processVisit).w.processMap
        = [(1, lit "\\w3wp.exe -ap ")] := by
  have hres : getAppPoolNameFromCommandLine (lit "C:\\my-apps\\w3wp.exe -ap \"Pool1\"")
      = .ok (lit "\\w3wp.exe -ap ") := rfl
  refine ⟨by decide, by decide, rfl, hres, ?_, rfl⟩
  rw [hres]
  intro h
  exact absurd (Except.ok.inj h) (by decide)

end Telegraf
